import Mathlib

/-
Verification of the AzureIPChecker network-relationship core.

The Python source (src/utils/ip_validator.py, src/core/subnet_analyzer.py)
is shallowly embedded below.  IPv4 networks are represented by their
network address (a natural number below 2^32) together with a prefix
length; the `ipaddress` standard-library operations the source calls
(`==`, `supernet_of`, `subnet_of`, `overlaps`, `in`, `is_multicast`,
`is_global`, string parsing with `strict=False`) are embedded from the
CPython `ipaddress` module that the source imports.

Machine-integer detail: for a network address `a` that is aligned on its
prefix (`a % 2^(32-p) = 0`, which the `ipaddress` constructors guarantee)
the bitwise operations of the source reduce to plain arithmetic:
`x & netmask = x / 2^(32-p) * 2^(32-p)` for `x < 2^32`, and
`network_address | hostmask = a + (2^(32-p) - 1)`.  The embedding uses
these arithmetic forms.
-/

namespace AzureIPChecker

/-- Python strings of the parsing layer are modelled as lists of characters. -/
abbrev Str := List Char

/-- Embedding of `ipaddress.IPv4Network`: the (already masked) network
address and the prefix length.  Two Python networks compare equal iff
their network addresses and netmasks agree, which for prefix lengths
up to 32 is exactly structural equality of this representation. -/
structure IPv4Network where
  addr : Nat
  prefixlen : Nat
deriving DecidableEq

/-- Number of addresses covered by a network of the given prefix length. -/
def hostBits (p : Nat) : Nat := 2 ^ (32 - p)

/-- Invariant every value built by the `ipaddress` constructors satisfies:
the address fits in 32 bits, the prefix length is at most 32, and the
host bits are zero (the `strict=False` constructor masks them away). -/
def IPv4Network.valid (n : IPv4Network) : Prop :=
  n.addr < 2 ^ 32 ∧ n.prefixlen ≤ 32 ∧ n.addr % hostBits n.prefixlen = 0

instance (n : IPv4Network) : Decidable n.valid := by
  unfold IPv4Network.valid; infer_instance

/-- `IPv4Network.broadcast_address`: network address with all host bits set.
For an aligned network address the bitwise-or with the hostmask is
addition of `hostBits - 1`. -/
def IPv4Network.broadcast (n : IPv4Network) : Nat :=
  n.addr + (hostBits n.prefixlen - 1)

/-- Clearing the low `32 - p` bits of `x` (bitwise-and with the netmask,
for `x < 2^32`), written arithmetically. -/
def maskAddr (x p : Nat) : Nat := x / hostBits p * hostBits p

/-- `x in n` for an address `x` and a network `n`
(`IPv4Network.__contains__`): the address masked by the netmask equals
the network address. -/
def addrIn (x : Nat) (n : IPv4Network) : Bool :=
  decide (maskAddr x n.prefixlen = n.addr)

/-- `a.subnet_of(b)` from `ipaddress._BaseNetwork._is_subnet_of`:
`b.network_address <= a.network_address` and
`a.broadcast_address <= b.broadcast_address`. -/
def subnetOf (a b : IPv4Network) : Bool :=
  decide (b.addr ≤ a.addr ∧ a.broadcast ≤ b.broadcast)

/-- `a.supernet_of(b)` is `b.subnet_of(a)`. -/
def supernetOf (a b : IPv4Network) : Bool := subnetOf b a

/-- `a.overlaps(b)` from `ipaddress._BaseNetwork.overlaps`:
either endpoint of one network is a member of the other. -/
def overlapsNet (a b : IPv4Network) : Bool :=
  addrIn a.addr b || addrIn a.broadcast b || addrIn b.addr a || addrIn b.broadcast a

/-- The relationship strings returned by `IPValidator.is_subnet_overlap`,
plus `host_in_subnet`, which `SubnetAnalyzer._analyze_subnet` uses. -/
inductive Relationship where
  | exact
  | contains
  | contained
  | overlap
  | host_in_subnet
  | none
deriving DecidableEq

/-- `IPValidator.is_subnet_overlap` (src/utils/ip_validator.py lines 62-84):
the if/elif cascade over `==`, `supernet_of`, `subnet_of`, `overlaps`. -/
def is_subnet_overlap (network1 network2 : IPv4Network) : Relationship :=
  if network1 = network2 then .exact
  else if supernetOf network1 network2 then .contains
  else if subnetOf network1 network2 then .contained
  else if overlapsNet network1 network2 then .overlap
  else .none

/-- `IPValidator.check_host_in_network` (src/utils/ip_validator.py lines
86-101): true iff the host network is a /32 whose network address is a
member of the subnet. -/
def check_host_in_network (host_network subnet : IPv4Network) : Bool :=
  if host_network.prefixlen = 32 then addrIn host_network.addr subnet
  else false

/-- Spec-language predicate: the address `x` lies within the range of `n`. -/
def inRange (x : Nat) (n : IPv4Network) : Prop :=
  n.addr ≤ x ∧ x ≤ n.broadcast

/-- Spec-language predicate: `a`'s address range is a subset of `b`'s. -/
def rangeSubset (a b : IPv4Network) : Prop :=
  b.addr ≤ a.addr ∧ a.broadcast ≤ b.broadcast

/-- Spec-language predicate: the address ranges of `a` and `b` intersect. -/
def rangesIntersect (a b : IPv4Network) : Prop :=
  ∃ x, inRange x a ∧ inRange x b

instance (x : Nat) (n : IPv4Network) : Decidable (inRange x n) := by
  unfold inRange; infer_instance

instance (a b : IPv4Network) : Decidable (rangeSubset a b) := by
  unfold rangeSubset; infer_instance

section ArithmeticLemmas

theorem hostBits_pos (p : Nat) : 0 < hostBits p := Nat.pos_pow_of_pos _ (by omega)

theorem broadcast_ge (n : IPv4Network) : n.addr ≤ n.broadcast :=
  Nat.le_add_right _ _

/-- Division characterisation used to relate the masked form of address
membership to plain range membership. -/
theorem div_mul_eq_iff (x q c : Nat) (hc : 0 < c) :
    x / c * c = q * c ↔ q * c ≤ x ∧ x < q * c + c := by
  have h1 : x / c * c = q * c ↔ x / c = q :=
    ⟨fun h => Nat.eq_of_mul_eq_mul_right hc h, fun h => by rw [h]⟩
  have h2 : x / c = q ↔ q ≤ x / c ∧ x / c < q + 1 := by omega
  rw [h1, h2, Nat.le_div_iff_mul_le hc, Nat.div_lt_iff_lt_mul hc, Nat.succ_mul]

/-- For an aligned network, masked membership is range membership. -/
theorem addrIn_iff_inRange (x : Nat) (n : IPv4Network)
    (hal : n.addr % hostBits n.prefixlen = 0) :
    addrIn x n = true ↔ inRange x n := by
  have hc : 0 < hostBits n.prefixlen := hostBits_pos n.prefixlen
  have hq : n.addr / hostBits n.prefixlen * hostBits n.prefixlen = n.addr := by
    have h := Nat.div_add_mod n.addr (hostBits n.prefixlen)
    rw [Nat.mul_comm] at h
    rw [hal] at h
    omega
  have key := div_mul_eq_iff x (n.addr / hostBits n.prefixlen) (hostBits n.prefixlen) hc
  rw [hq] at key
  unfold addrIn maskAddr inRange IPv4Network.broadcast
  rw [decide_eq_true_iff, key]
  omega

/-- Every aligned network contains its own network address. -/
theorem addrIn_self (n : IPv4Network) (hal : n.addr % hostBits n.prefixlen = 0) :
    addrIn n.addr n = true := by
  rw [addrIn_iff_inRange _ _ hal]
  exact ⟨Nat.le_refl _, broadcast_ge n⟩

/-- Every aligned network contains its own broadcast address. -/
theorem addrIn_broadcast_self (n : IPv4Network)
    (hal : n.addr % hostBits n.prefixlen = 0) :
    addrIn n.broadcast n = true := by
  rw [addrIn_iff_inRange _ _ hal]
  exact ⟨broadcast_ge n, Nat.le_refl _⟩

/-- Two valid networks covering the same address range are equal. -/
theorem eq_of_range_eq (a b : IPv4Network) (ha : a.valid) (hb : b.valid)
    (h1 : a.addr = b.addr) (h2 : a.broadcast = b.broadcast) : a = b := by
  obtain ⟨_, hpa, _⟩ := ha
  obtain ⟨_, hpb, _⟩ := hb
  have hba := hostBits_pos a.prefixlen
  have hbb := hostBits_pos b.prefixlen
  have hhb : hostBits a.prefixlen = hostBits b.prefixlen := by
    unfold IPv4Network.broadcast at h2
    omega
  have hexp : 32 - a.prefixlen = 32 - b.prefixlen :=
    Nat.pow_right_injective (Nat.le_refl 2) hhb
  have hp : a.prefixlen = b.prefixlen := by omega
  cases a; cases b
  simp_all

/-- For valid networks the source's `overlaps` coincides with
intersection of the address ranges. -/
theorem overlapsNet_iff (a b : IPv4Network) (ha : a.valid) (hb : b.valid) :
    overlapsNet a b = true ↔ rangesIntersect a b := by
  obtain ⟨_, _, hala⟩ := ha
  obtain ⟨_, _, halb⟩ := hb
  unfold overlapsNet
  simp only [Bool.or_eq_true]
  constructor
  · intro h
    rcases h with ((h | h) | h) | h
    · exact ⟨a.addr, ⟨Nat.le_refl _, broadcast_ge a⟩, (addrIn_iff_inRange _ _ halb).mp h⟩
    · exact ⟨a.broadcast, ⟨broadcast_ge a, Nat.le_refl _⟩, (addrIn_iff_inRange _ _ halb).mp h⟩
    · exact ⟨b.addr, (addrIn_iff_inRange _ _ hala).mp h, ⟨Nat.le_refl _, broadcast_ge b⟩⟩
    · exact ⟨b.broadcast, (addrIn_iff_inRange _ _ hala).mp h, ⟨broadcast_ge b, Nat.le_refl _⟩⟩
  · rintro ⟨x, ⟨hax, hxa⟩, hbx, hxb⟩
    rcases Nat.le_total a.addr b.addr with h | h
    · left; right
      rw [addrIn_iff_inRange _ _ hala]
      exact ⟨h, Nat.le_trans hbx hxa⟩
    · left; left; left
      rw [addrIn_iff_inRange _ _ halb]
      exact ⟨h, Nat.le_trans hax hxb⟩

/-- `is_subnet_overlap` never yields `host_in_subnet`. -/
theorem is_subnet_overlap_ne_host (a b : IPv4Network) :
    is_subnet_overlap a b ≠ .host_in_subnet := by
  unfold is_subnet_overlap
  split_ifs <;> simp

end ArithmeticLemmas

/-! ## String parsing (embedding of the `ipaddress` parsers the source calls) -/

/-- Python `str.split(sep)` for a one-character separator: splits at every
occurrence, keeping empty pieces (`"".split(sep) == [""]`). -/
def splitOnChar : Str → Char → List Str
  | [], _ => [[]]
  | c :: rest, sep =>
    if c = sep then [] :: splitOnChar rest sep
    else
      match splitOnChar rest sep with
      | g :: gs => (c :: g) :: gs
      | [] => [[c]]

/-- Decimal digit accumulation, as Python `int(s, 10)` on an
all-digits string. -/
def digitsToNat (l : Str) : Nat :=
  l.foldl (fun acc c => acc * 10 + (c.toNat - 48)) 0

/-- `ipaddress._IPv4Constants`-style octet parser
(`IPv4Address._parse_octet`): nonempty, decimal digits only, at most 3
characters, no leading zero unless the octet is exactly "0", value at
most 255.  A failure is an `AddressValueError` in the caller. -/
def parseOctet (l : Str) : Option Nat :=
  if l = [] then none
  else if ¬ l.all Char.isDigit then none
  else if 3 < l.length then none
  else if l ≠ ['0'] ∧ l.head? = some '0' then none
  else if 255 < digitsToNat l then none
  else some (digitsToNat l)

/-- `IPv4Address._ip_int_from_string`: split on '.', require exactly four
octets, combine them big-endian. -/
def parseQuadCore (l : Str) : Option Nat :=
  match splitOnChar l '.' with
  | [o1, o2, o3, o4] =>
    (parseOctet o1).bind fun a =>
      (parseOctet o2).bind fun b =>
        (parseOctet o3).bind fun c =>
          (parseOctet o4).map fun d => ((a * 256 + b) * 256 + c) * 256 + d
  | _ => none

/-- `IPv4Network._prefix_from_ip_int`: accept an integer that is a
netmask, i.e. of the form `1^p 0^(32-p)`. -/
def maskIntToPrefix (x : Nat) : Option Nat :=
  (List.range 33).find? (fun p => x = 2 ^ 32 - hostBits p)

/-- `IPv4Network._make_netmask` for a string argument: first try the
prefix-length form (decimal digits, value at most 32); on failure parse
the argument as a dotted quad and accept a netmask or, failing that, a
hostmask (`_prefix_from_ip_string`).  `none` is a `NetmaskValueError`. -/
def parseNetmask (l : Str) : Option Nat :=
  if l ≠ [] ∧ l.all Char.isDigit ∧ digitsToNat l ≤ 32 then some (digitsToNat l)
  else
    match parseQuadCore l with
    | Option.none => Option.none
    | some x =>
      match maskIntToPrefix x with
      | some p => some p
      | Option.none => maskIntToPrefix (2 ^ 32 - 1 - x)

/-- The two exception classes the `ipaddress` constructors raise. -/
inductive ParseError where
  | addressValue
  | netmaskValue
deriving DecidableEq

/-- `ipaddress.IPv4Network(s, strict=False)`: split on '/' (at most one
allowed), parse the address part as a dotted quad, parse the mask part
(defaulting to /32), and silently clear the host bits. -/
def ipNetworkParse (l : Str) : Except ParseError IPv4Network :=
  match splitOnChar l '/' with
  | [a] =>
    match parseQuadCore a with
    | Option.none => .error .addressValue
    | some x => .ok ⟨maskAddr x 32, 32⟩
  | [a, m] =>
    match parseQuadCore a with
    | Option.none => .error .addressValue
    | some x =>
      match parseNetmask m with
      | Option.none => .error .netmaskValue
      | some p => .ok ⟨maskAddr x p, p⟩
  | _ => .error .addressValue

/-! ## `IPValidator.validate_input` (src/utils/ip_validator.py lines 13-60) -/

/-- Python whitespace characters stripped by `str.strip()` (ASCII range). -/
def isPySpace (c : Char) : Bool :=
  c = ' ' || c = '\t' || c = '\n' || c = '\x0d' || c = '\x0b' || c = '\x0c'

/-- Python `str.strip()`. -/
def pyStrip (l : Str) : Str :=
  ((l.dropWhile isPySpace).reverse.dropWhile isPySpace).reverse

/-- The multicast block 224.0.0.0/4 (`ipaddress` constant). -/
def multicastNet : IPv4Network := ⟨3758096384, 4⟩

/-- `IPv4Network.is_multicast`: both the network address and the
broadcast address lie in 224.0.0.0/4. -/
def is_multicast (n : IPv4Network) : Bool :=
  addrIn n.addr multicastNet && addrIn n.broadcast multicastNet

/-- The private blocks of `ipaddress.IPv4Address.is_private`
(CPython's `_private_networks` constant table for IPv4). -/
def privateNets : List IPv4Network :=
  [⟨0, 8⟩,                -- 0.0.0.0/8
   ⟨167772160, 8⟩,        -- 10.0.0.0/8
   ⟨2130706432, 8⟩,       -- 127.0.0.0/8
   ⟨2851995648, 16⟩,      -- 169.254.0.0/16
   ⟨2886729728, 12⟩,      -- 172.16.0.0/12
   ⟨3221225472, 29⟩,      -- 192.0.0.0/29
   ⟨3221225642, 31⟩,      -- 192.0.0.170/31
   ⟨3221225984, 24⟩,      -- 192.0.2.0/24
   ⟨3232235520, 16⟩,      -- 192.168.0.0/16
   ⟨3323068416, 15⟩,      -- 198.18.0.0/15
   ⟨3325256704, 24⟩,      -- 198.51.100.0/24
   ⟨3405803776, 24⟩,      -- 203.0.113.0/24
   ⟨4026531840, 4⟩,       -- 240.0.0.0/4
   ⟨4294967295, 32⟩]      -- 255.255.255.255/32

/-- `IPv4Address.is_private`: membership in any private block. -/
def addrIsPrivate (x : Nat) : Bool :=
  privateNets.any (fun n => addrIn x n)

/-- The shared address space 100.64.0.0/10 (`ipaddress` constant). -/
def cgnatNet : IPv4Network := ⟨1681915904, 10⟩

/-- `IPv4Network.is_global`: not inside 100.64.0.0/10 and not private
(a network is private iff both endpoints are private addresses). -/
def netIsGlobal (n : IPv4Network) : Bool :=
  !(addrIn n.addr cgnatNet && addrIn n.broadcast cgnatNet) &&
    !(addrIsPrivate n.addr && addrIsPrivate n.broadcast)

/-- Normalised interactive confirmation:
`input(...).strip().lower() in ['y', 'yes']`. -/
def replyYes (reply : Str) : Bool :=
  let r := (pyStrip reply).map Char.toLower
  r = ['y'] || r = ['y', 'e', 's']

/-- Placeholder for `str(e)` of the caught exception in the
`Invalid CIDR notation` message (its exact text is irrelevant here). -/
def parseErrText : ParseError → String
  | .addressValue => "address value error"
  | .netmaskValue => "netmask value error"

/-- The parsing phase of `IPValidator.validate_input`: empty check,
strip, implicit `/32` for a mask-less host, then the network
constructor in non-strict mode. -/
def validateParse (s : Str) : Except String IPv4Network :=
  if pyStrip s = [] then .error "Empty input provided"
  else if '/' ∈ pyStrip s then
    match ipNetworkParse (pyStrip s) with
    | .error e => .error ("Invalid CIDR notation: " ++ parseErrText e)
    | .ok n => .ok n
  else
    match parseQuadCore (pyStrip s) with
    | Option.none => .error ("Invalid IP address format: " ++ String.mk (pyStrip s))
    | some _ =>
      match ipNetworkParse (pyStrip s ++ ['/', '3', '2']) with
      | .error e => .error ("Invalid CIDR notation: " ++ parseErrText e)
      | .ok n => .ok n

/-- `IPValidator.validate_input`: the parse phase followed by the
address-class checks and the interactive public-address confirmation,
whose `input()` answer is passed in as `reply`. -/
def validate_input (s reply : Str) : Except String IPv4Network :=
  match validateParse s with
  | .error e => .error e
  | .ok network =>
    if is_multicast network then .error "Multicast addresses are not supported in VNet"
    else if 4026531840 ≤ network.addr then .error "Class E addresses are not supported"
    else if netIsGlobal network then
      if replyYes reply then .ok network
      else .error "Operation cancelled by user"
    else .ok network

/-! ## `SubnetAnalyzer` (src/core/subnet_analyzer.py) -/

/-- Fuel-based decimal rendering of a natural number (`str(n)`). -/
def natDecimalAux : Nat → Nat → Str → Str
  | 0, _, acc => acc
  | fuel + 1, n, acc =>
    let d := Char.ofNat (48 + n % 10)
    if n < 10 then d :: acc else natDecimalAux fuel (n / 10) (d :: acc)

/-- Decimal rendering of a natural number (`str(n)`). -/
def natDecimal (n : Nat) : Str := natDecimalAux (n + 1) n []

/-- `str(IPv4Address)`: dotted-quad rendering of the four bytes. -/
def addrToQuad (x : Nat) : Str :=
  natDecimal (x / 16777216 % 256) ++ '.' ::
    (natDecimal (x / 65536 % 256) ++ '.' ::
      (natDecimal (x / 256 % 256) ++ '.' :: natDecimal (x % 256)))

/-- `str(IPv4Network)`: "address/prefixlen". -/
def netToStr (n : IPv4Network) : Str :=
  addrToQuad n.addr ++ '/' :: natDecimal n.prefixlen

/-- A subnet record of a discovered VNet (Python dict with keys `name`
and `address_prefix`; the latter is the `cidr` field here). -/
structure SubnetRec where
  name : Str
  cidr : Str
deriving DecidableEq

/-- A discovered VNet record (Python dict with keys `name`,
`resource_group`, `address_prefixes`, `subnets`). -/
structure VNetRec where
  name : Str
  resource_group : Str
  addressPrefixes : List Str
  subnets : List SubnetRec
deriving DecidableEq

/-- A `match_info` dict: vnet-level matches carry no subnet name. The
`mtype` field is the Python `type` key. -/
structure MatchInfo where
  vnet_name : Str
  resource_group : Str
  subnet_name : Option Str
  mtype : Str
  network : Str
  relationship : Relationship
deriving DecidableEq

/-- The `results['matches']` dict: one ordered bucket per relationship. -/
structure Matches where
  exact : List MatchInfo
  contains : List MatchInfo
  contained : List MatchInfo
  overlap : List MatchInfo
  host_in_subnet : List MatchInfo
deriving DecidableEq

/-- The `results` dict of `SubnetAnalyzer.analyze_ip_usage`. -/
structure Results where
  target_network : Str
  is_host : Bool
  matchBuckets : Matches   -- Python key: results['matches']
  total_vnets_checked : Nat
  total_subnets_checked : Nat
deriving DecidableEq

/-- The `match_info` built for a VNet address-space hit
(`type = 'vnet_address_space'`, no subnet name). -/
def mkVnetMatch (vn rg : Str) (net : IPv4Network) (rel : Relationship) : MatchInfo :=
  ⟨vn, rg, Option.none, "vnet_address_space".toList, netToStr net, rel⟩

/-- The `match_info` built for a subnet hit (`type = 'subnet'`). -/
def mkSubnetMatch (vn rg sn : Str) (net : IPv4Network) (rel : Relationship) : MatchInfo :=
  ⟨vn, rg, some sn, "subnet".toList, netToStr net, rel⟩

/-- One iteration of the `for prefix in vnet.get('address_prefixes', [])`
loop of `SubnetAnalyzer._analyze_vnet`: parse the prefix (an
`AddressValueError` is caught and the prefix skipped; a
`NetmaskValueError` is NOT caught by the `except` clause and
propagates), classify against the target, and append the match to the
bucket named by the relationship, `none` appending nothing. -/
def vnetStep (t : IPv4Network) (vn rg : Str) (res : Results) (p : Str) :
    Except ParseError Results :=
  match ipNetworkParse p with
  | .error .netmaskValue => .error .netmaskValue
  | .error .addressValue => .ok res
  | .ok net =>
    match is_subnet_overlap t net with
    | .exact =>
      .ok { res with matchBuckets :=
        { res.matchBuckets with exact := res.matchBuckets.exact ++ [mkVnetMatch vn rg net .exact] } }
    | .contains =>
      .ok { res with matchBuckets :=
        { res.matchBuckets with contains := res.matchBuckets.contains ++ [mkVnetMatch vn rg net .contains] } }
    | .contained =>
      .ok { res with matchBuckets :=
        { res.matchBuckets with contained := res.matchBuckets.contained ++ [mkVnetMatch vn rg net .contained] } }
    | .overlap =>
      .ok { res with matchBuckets :=
        { res.matchBuckets with overlap := res.matchBuckets.overlap ++ [mkVnetMatch vn rg net .overlap] } }
    | _ => .ok res

/-- The address-prefix loop of `SubnetAnalyzer._analyze_vnet`. -/
def vnetLoop (t : IPv4Network) (vn rg : Str) : List Str → Results → Except ParseError Results
  | [], res => .ok res
  | p :: ps, res =>
    match vnetStep t vn rg res p with
    | .error e => .error e
    | .ok r => vnetLoop t vn rg ps r

/-- `SubnetAnalyzer._analyze_subnet` (lines 107-168): parse the subnet
prefix (same catch-only-`AddressValueError` policy); when the target is
a /32 and `check_host_in_network` holds, append one match to
`host_in_subnet` and return; otherwise classify with
`is_subnet_overlap` and bucket the non-`none` result. -/
def analyzeSubnet (t : IPv4Network) (sub : SubnetRec) (vn rg : Str) (res : Results) :
    Except ParseError Results :=
  match ipNetworkParse sub.cidr with
  | .error .netmaskValue => .error .netmaskValue
  | .error .addressValue => .ok res
  | .ok net =>
    if t.prefixlen = 32 ∧ check_host_in_network t net = true then
      .ok { res with matchBuckets :=
        { res.matchBuckets with host_in_subnet :=
            res.matchBuckets.host_in_subnet ++ [mkSubnetMatch vn rg sub.name net .host_in_subnet] } }
    else
      match is_subnet_overlap t net with
      | .exact =>
        .ok { res with matchBuckets :=
          { res.matchBuckets with exact := res.matchBuckets.exact ++ [mkSubnetMatch vn rg sub.name net .exact] } }
      | .contains =>
        .ok { res with matchBuckets :=
          { res.matchBuckets with contains := res.matchBuckets.contains ++ [mkSubnetMatch vn rg sub.name net .contains] } }
      | .contained =>
        .ok { res with matchBuckets :=
          { res.matchBuckets with contained := res.matchBuckets.contained ++ [mkSubnetMatch vn rg sub.name net .contained] } }
      | .overlap =>
        .ok { res with matchBuckets :=
          { res.matchBuckets with overlap := res.matchBuckets.overlap ++ [mkSubnetMatch vn rg sub.name net .overlap] } }
      | _ => .ok res

/-- The subnet loop of `SubnetAnalyzer._analyze_vnet`:
`total_subnets_checked` is incremented after each subnet is analysed. -/
def subnetLoop (t : IPv4Network) (vn rg : Str) : List SubnetRec → Results → Except ParseError Results
  | [], res => .ok res
  | s :: ss, res =>
    match analyzeSubnet t s vn rg res with
    | .error e => .error e
    | .ok r =>
      subnetLoop t vn rg ss { r with total_subnets_checked := r.total_subnets_checked + 1 }

/-- `SubnetAnalyzer._analyze_vnet`: the address-prefix loop followed by
the subnet loop. -/
def analyzeVnet (t : IPv4Network) (v : VNetRec) (res : Results) : Except ParseError Results :=
  match vnetLoop t v.name v.resource_group v.addressPrefixes res with
  | .error e => .error e
  | .ok r => subnetLoop t v.name v.resource_group v.subnets r

/-- The `for vnet in vnets` loop of `SubnetAnalyzer.analyze_ip_usage`. -/
def vnetsLoop (t : IPv4Network) : List VNetRec → Results → Except ParseError Results
  | [], res => .ok res
  | v :: vs, res =>
    match analyzeVnet t v res with
    | .error e => .error e
    | .ok r => vnetsLoop t vs r

/-- The initial `results` dict of `SubnetAnalyzer.analyze_ip_usage`:
empty buckets, `total_vnets_checked = len(vnets)`. -/
def initResults (t : IPv4Network) (vnets : List VNetRec) : Results :=
  ⟨netToStr t, decide (t.prefixlen = 32), ⟨[], [], [], [], []⟩, vnets.length, 0⟩

/-- `SubnetAnalyzer.analyze_ip_usage` (lines 18-50). -/
def analyze_ip_usage (t : IPv4Network) (vnets : List VNetRec) : Except ParseError Results :=
  vnetsLoop t vnets (initResults t vnets)

/-- Spec-side description of the bucket update: a match with the given
relationship goes to the bucket of the same name, and a `none` (or
`host_in_subnet`) relationship coming out of `is_subnet_overlap` adds
nothing.  Used to state the claims about the analyzer's control flow. -/
def appendByRel (res : Results) (rel : Relationship) (mi : MatchInfo) : Results :=
  match rel with
  | .exact => { res with matchBuckets := { res.matchBuckets with exact := res.matchBuckets.exact ++ [mi] } }
  | .contains => { res with matchBuckets := { res.matchBuckets with contains := res.matchBuckets.contains ++ [mi] } }
  | .contained => { res with matchBuckets := { res.matchBuckets with contained := res.matchBuckets.contained ++ [mi] } }
  | .overlap => { res with matchBuckets := { res.matchBuckets with overlap := res.matchBuckets.overlap ++ [mi] } }
  | .host_in_subnet => res
  | .none => res

/-! ## Parse validity and classifier inversion lemmas -/

theorem parseOctet_le (l : Str) (v : Nat) (h : parseOctet l = some v) : v ≤ 255 := by
  unfold parseOctet at h
  split_ifs at h with h1 h2 h3 h4 h5
  injection h with h
  omega

theorem parseQuadCore_lt (l : Str) (x : Nat) (h : parseQuadCore l = some x) :
    x < 2 ^ 32 := by
  unfold parseQuadCore at h
  split at h
  · simp only [Option.bind_eq_some, Option.map_eq_some'] at h
    obtain ⟨a, ha, b, hb, c, hc, d, hd, rfl⟩ := h
    have h1 := parseOctet_le _ _ ha
    have h2 := parseOctet_le _ _ hb
    have h3 := parseOctet_le _ _ hc
    have h4 := parseOctet_le _ _ hd
    omega
  · exact absurd h (by simp)

theorem maskIntToPrefix_le (x p : Nat) (h : maskIntToPrefix x = some p) : p ≤ 32 := by
  unfold maskIntToPrefix at h
  have hm := List.mem_of_find?_eq_some h
  have := List.mem_range.mp hm
  omega

theorem parseNetmask_le (l : Str) (p : Nat) (h : parseNetmask l = some p) : p ≤ 32 := by
  unfold parseNetmask at h
  split_ifs at h with h1
  · injection h with h; omega
  · split at h
    · exact absurd h (by simp)
    · split at h
      · case _ q hq => injection h with h; subst h; exact maskIntToPrefix_le _ _ hq
      · exact maskIntToPrefix_le _ _ h

theorem maskAddr_le (x p : Nat) : maskAddr x p ≤ x := Nat.div_mul_le_self x _

theorem maskAddr_aligned (x p : Nat) : maskAddr x p % hostBits p = 0 :=
  Nat.mul_mod_left _ _

/-- Every network built by the embedded `IPv4Network` constructor is valid. -/
theorem ipNetworkParse_valid (l : Str) (n : IPv4Network)
    (h : ipNetworkParse l = .ok n) : n.valid := by
  unfold ipNetworkParse at h
  split at h
  · split at h
    · exact absurd h (by simp)
    · case _ x hx =>
      injection h with h
      subst h
      refine ⟨Nat.lt_of_le_of_lt (maskAddr_le _ _) (parseQuadCore_lt _ _ hx),
        Nat.le_refl 32, maskAddr_aligned _ _⟩
  · split at h
    · exact absurd h (by simp)
    · case _ x hx =>
      split at h
      · exact absurd h (by simp)
      · case _ p hp =>
        injection h with h
        subst h
        exact ⟨Nat.lt_of_le_of_lt (maskAddr_le _ _) (parseQuadCore_lt _ _ hx),
          parseNetmask_le _ _ hp, maskAddr_aligned _ _⟩
  · exact absurd h (by simp)

theorem supernetOf_iff (a b : IPv4Network) : supernetOf a b = true ↔ rangeSubset b a := by
  unfold supernetOf subnetOf rangeSubset
  rw [decide_eq_true_iff]

theorem subnetOf_iff (a b : IPv4Network) : subnetOf a b = true ↔ rangeSubset a b := by
  unfold subnetOf rangeSubset
  rw [decide_eq_true_iff]

theorem iso_exact_iff (a b : IPv4Network) :
    is_subnet_overlap a b = .exact ↔ a = b := by
  unfold is_subnet_overlap
  split_ifs <;> simp_all

theorem iso_contains_iff (a b : IPv4Network) :
    is_subnet_overlap a b = .contains ↔ a ≠ b ∧ supernetOf a b = true := by
  unfold is_subnet_overlap
  split_ifs <;> simp_all

theorem iso_contained_iff (a b : IPv4Network) :
    is_subnet_overlap a b = .contained ↔
      a ≠ b ∧ supernetOf a b = false ∧ subnetOf a b = true := by
  unfold is_subnet_overlap
  split_ifs <;> simp_all

theorem iso_overlap_iff (a b : IPv4Network) :
    is_subnet_overlap a b = .overlap ↔
      a ≠ b ∧ supernetOf a b = false ∧ subnetOf a b = false ∧ overlapsNet a b = true := by
  unfold is_subnet_overlap
  split_ifs <;> simp_all

theorem iso_none_iff (a b : IPv4Network) :
    is_subnet_overlap a b = .none ↔
      a ≠ b ∧ supernetOf a b = false ∧ subnetOf a b = false ∧ overlapsNet a b = false := by
  unfold is_subnet_overlap
  split_ifs <;> simp_all

/-! ## Claims about the pairwise classifier -/

/-- Claim C1: `is_subnet_overlap` evaluates its checks in the fixed order
exact, contains, contained, overlap, none, and returns the result of the
first matching condition: `exact` iff the networks are equal; otherwise
`contains` iff `a`'s range is a (possibly non-strict) superset of `b`'s;
otherwise `contained` iff `a`'s range is a subset of `b`'s; otherwise
`overlap` iff the address ranges intersect; otherwise `none`.  In
particular an exact match is never reported as contains or contained. -/
theorem claim_C1 (a b : IPv4Network) (ha : a.valid) (hb : b.valid) :
    (is_subnet_overlap a b = .exact ↔ a = b)
  ∧ (is_subnet_overlap a b = .contains ↔ a ≠ b ∧ rangeSubset b a)
  ∧ (is_subnet_overlap a b = .contained ↔ a ≠ b ∧ ¬ rangeSubset b a ∧ rangeSubset a b)
  ∧ (is_subnet_overlap a b = .overlap ↔
      a ≠ b ∧ ¬ rangeSubset b a ∧ ¬ rangeSubset a b ∧ rangesIntersect a b)
  ∧ (is_subnet_overlap a b = .none ↔
      a ≠ b ∧ ¬ rangeSubset b a ∧ ¬ rangeSubset a b ∧ ¬ rangesIntersect a b) := by
  have hs1 : (supernetOf a b = true) = rangeSubset b a := propext (supernetOf_iff a b)
  have hs2 : (subnetOf a b = true) = rangeSubset a b := propext (subnetOf_iff a b)
  have hs3 : (overlapsNet a b = true) = rangesIntersect a b := propext (overlapsNet_iff a b ha hb)
  refine ⟨iso_exact_iff a b, ?_, ?_, ?_, ?_⟩
  · rw [iso_contains_iff, hs1]
  · rw [iso_contained_iff]
    rw [show (supernetOf a b = false) = ¬ (supernetOf a b = true) by simp, hs1, hs2]
  · rw [iso_overlap_iff]
    rw [show (supernetOf a b = false) = ¬ (supernetOf a b = true) by simp,
        show (subnetOf a b = false) = ¬ (subnetOf a b = true) by simp, hs1, hs2, hs3]
  · rw [iso_none_iff]
    rw [show (supernetOf a b = false) = ¬ (supernetOf a b = true) by simp,
        show (subnetOf a b = false) = ¬ (subnetOf a b = true) by simp,
        show (overlapsNet a b = false) = ¬ (overlapsNet a b = true) by simp, hs1, hs2, hs3]

/-- Witness for C1 at 10.0.0.0/16 versus 10.0.0.0/24 (a contains b). -/
theorem claim_C1_witness :
    is_subnet_overlap ⟨167772160, 16⟩ ⟨167772160, 24⟩ = .contains ↔
      (⟨167772160, 16⟩ : IPv4Network) ≠ ⟨167772160, 24⟩ ∧
        rangeSubset ⟨167772160, 24⟩ ⟨167772160, 16⟩ :=
  (claim_C1 ⟨167772160, 16⟩ ⟨167772160, 24⟩ (by decide) (by decide)).2.1

/-- Claim C5: `check_host_in_network` returns true iff the host argument
has prefix length exactly 32 and its single address lies within the
subnet's range; in particular it is false (a total function, no
exception) whenever the host's prefix length is not 32. -/
theorem claim_C5 (host subnet : IPv4Network) (hs : subnet.valid) :
    check_host_in_network host subnet = true ↔
      host.prefixlen = 32 ∧ inRange host.addr subnet := by
  unfold check_host_in_network
  by_cases h32 : host.prefixlen = 32
  · rw [if_pos h32, addrIn_iff_inRange _ _ hs.2.2]
    simp [h32]
  · rw [if_neg h32]
    simp [h32]

/-- Witness for C5: 10.0.0.5/32 against 10.0.0.0/24. -/
theorem claim_C5_witness :
    check_host_in_network ⟨167772165, 32⟩ ⟨167772160, 24⟩ = true ↔
      (⟨167772165, 32⟩ : IPv4Network).prefixlen = 32 ∧
        inRange 167772165 ⟨167772160, 24⟩ :=
  claim_C5 ⟨167772165, 32⟩ ⟨167772160, 24⟩ (by decide)

/-- Claim C6: for distinct valid networks, `is_subnet_overlap a b`
returns `contains` if and only if `is_subnet_overlap b a` returns
`contained`. -/
theorem claim_C6 (a b : IPv4Network) (ha : a.valid) (hb : b.valid) (hne : a ≠ b) :
    is_subnet_overlap a b = .contains ↔ is_subnet_overlap b a = .contained := by
  have hne' : b ≠ a := fun h => hne h.symm
  rw [iso_contains_iff, iso_contained_iff]
  constructor
  · rintro ⟨-, hsup⟩
    have hrs : rangeSubset b a := (supernetOf_iff a b).mp hsup
    refine ⟨hne', ?_, (subnetOf_iff b a).mpr hrs⟩
    rw [Bool.eq_false_iff]
    intro hba
    have hab : rangeSubset a b := (supernetOf_iff b a).mp hba
    exact hne (eq_of_range_eq a b ha hb (Nat.le_antisymm hrs.1 hab.1)
      (Nat.le_antisymm hab.2 hrs.2))
  · rintro ⟨-, -, hsub⟩
    exact ⟨hne, (supernetOf_iff a b).mpr ((subnetOf_iff b a).mp hsub)⟩

/-- Witness for C6 at 10.0.0.0/16 versus 10.0.0.0/24. -/
theorem claim_C6_witness :
    is_subnet_overlap ⟨167772160, 16⟩ ⟨167772160, 24⟩ = .contains ↔
      is_subnet_overlap ⟨167772160, 24⟩ ⟨167772160, 16⟩ = .contained :=
  claim_C6 ⟨167772160, 16⟩ ⟨167772160, 24⟩ (by decide) (by decide) (by decide)

/-! ## Lemmas about the validator -/

theorem mem_of_mem_dropWhile (p : Char → Bool) (l : Str) (c : Char)
    (h : c ∈ l.dropWhile p) : c ∈ l := by
  induction l with
  | nil => exact absurd h (by simp)
  | cons a as ih =>
    rw [List.dropWhile_cons] at h
    by_cases hp : p a = true
    · rw [if_pos hp] at h
      exact List.mem_cons_of_mem _ (ih h)
    · rw [if_neg hp] at h
      exact h

theorem mem_pyStrip (c : Char) (l : Str) (h : c ∈ pyStrip l) : c ∈ l := by
  unfold pyStrip at h
  rw [List.mem_reverse] at h
  have h1 := mem_of_mem_dropWhile _ _ _ h
  rw [List.mem_reverse] at h1
  exact mem_of_mem_dropWhile _ _ _ h1

theorem splitOnChar_ne_nil (l : Str) (sep : Char) : splitOnChar l sep ≠ [] := by
  cases l with
  | nil => simp [splitOnChar]
  | cons c rest =>
    unfold splitOnChar
    by_cases h : c = sep
    · simp [h]
    · rw [if_neg h]
      split <;> simp

theorem splitOnChar_append_sep (w rest : Str) (sep : Char) (hw : sep ∉ w) :
    splitOnChar (w ++ sep :: rest) sep = w :: splitOnChar rest sep := by
  induction w with
  | nil => simp [splitOnChar]
  | cons c cs ih =>
    have hc : ¬ c = sep := fun h => hw (h ▸ List.mem_cons_self c cs)
    have hcs : sep ∉ cs := fun h => hw (List.mem_cons_of_mem _ h)
    rw [List.cons_append]
    show (if c = sep then [] :: splitOnChar (cs ++ sep :: rest) sep
          else match splitOnChar (cs ++ sep :: rest) sep with
               | g :: gs => (c :: g) :: gs
               | [] => [[c]]) = (c :: cs) :: splitOnChar rest sep
    rw [if_neg hc, ih hcs]

/-- Appending an explicit "/32" to a slash-free dotted quad parses to the
/32 network of that address. -/
theorem ipNetworkParse_append32 (w : Str) (a : Nat) (hw : '/' ∉ w)
    (hq : parseQuadCore w = some a) :
    ipNetworkParse (w ++ ['/', '3', '2']) = .ok ⟨a, 32⟩ := by
  have hsplit : splitOnChar (w ++ ['/', '3', '2']) '/' = [w, ['3', '2']] := by
    rw [show (['/', '3', '2'] : Str) = '/' :: ['3', '2'] from rfl,
      splitOnChar_append_sep _ _ _ hw]
    rfl
  unfold ipNetworkParse
  rw [hsplit]
  dsimp only
  rw [hq]
  dsimp only
  rw [show parseNetmask ['3', '2'] = some 32 from rfl]
  dsimp only
  have : maskAddr a 32 = a := by
    unfold maskAddr hostBits
    norm_num
  rw [this]

theorem validateParse_valid (s : Str) (n : IPv4Network)
    (h : validateParse s = .ok n) : n.valid := by
  unfold validateParse at h
  split_ifs at h
  · split at h
    · exact absurd h (by simp)
    · case _ m hm =>
      injection h with h
      exact h ▸ ipNetworkParse_valid _ _ hm
  · split at h
    · exact absurd h (by simp)
    · split at h
      · exact absurd h (by simp)
      · case _ m hm =>
        injection h with h
        exact h ▸ ipNetworkParse_valid _ _ hm

theorem multicastNet_aligned :
    multicastNet.addr % hostBits multicastNet.prefixlen = 0 := by decide

/-- For a valid network, `is_multicast` holds exactly when the whole
network lies inside 224.0.0.0/4. -/
theorem is_multicast_iff (n : IPv4Network) :
    is_multicast n = true ↔ rangeSubset n multicastNet := by
  unfold is_multicast
  rw [Bool.and_eq_true, addrIn_iff_inRange _ _ multicastNet_aligned,
    addrIn_iff_inRange _ _ multicastNet_aligned]
  unfold inRange rangeSubset
  have := broadcast_ge n
  constructor
  · rintro ⟨⟨h1, -⟩, ⟨-, h4⟩⟩
    exact ⟨h1, h4⟩
  · rintro ⟨h1, h2⟩
    exact ⟨⟨h1, Nat.le_trans this h2⟩, ⟨Nat.le_trans h1 this, h2⟩⟩

/-- An address at or above 240.0.0.0 is not multicast, so the Class E
check is reachable for it. -/
theorem is_multicast_false_of_classE (n : IPv4Network) (h : 4026531840 ≤ n.addr) :
    is_multicast n = false := by
  unfold is_multicast
  rw [Bool.and_eq_false_iff]
  left
  rw [Bool.eq_false_iff]
  intro hmem
  have hb : multicastNet.broadcast = 4026531839 := by decide
  have := (addrIn_iff_inRange _ _ multicastNet_aligned).mp hmem
  unfold inRange at this
  omega

/-! ## Claims about the validator -/

/-- Claim C8: for every input whose parse phase succeeds,
`validate_input` fails with the multicast `UnsupportedAddressClass`
error when the parsed network lies inside 224.0.0.0/4, fails with the
Class E `UnsupportedAddressClass` error when its address is at or above
240.0.0.0, and no such network is ever returned as a success value. -/
theorem claim_C8 (s reply : Str) :
    (∀ n, validateParse s = .ok n → rangeSubset n multicastNet →
        validate_input s reply = .error "Multicast addresses are not supported in VNet")
  ∧ (∀ n, validateParse s = .ok n → 4026531840 ≤ n.addr →
        validate_input s reply = .error "Class E addresses are not supported")
  ∧ (∀ n, validate_input s reply = .ok n →
        ¬ rangeSubset n multicastNet ∧ n.addr < 4026531840) := by
  refine ⟨?_, ?_, ?_⟩
  · intro n hp hsub
    have hm : is_multicast n = true := (is_multicast_iff n).mpr hsub
    unfold validate_input
    rw [hp]
    simp [hm]
  · intro n hp h240
    have hm : is_multicast n = false := is_multicast_false_of_classE n h240
    unfold validate_input
    rw [hp]
    simp [hm, h240]
  · intro n hok
    unfold validate_input at hok
    split at hok
    · exact absurd hok (by simp)
    · case _ m hm =>
      split_ifs at hok with h1 h2 h3 h4
      · injection hok with hok
        subst hok
        exact ⟨fun hsub => h1 ((is_multicast_iff m).mpr hsub), by omega⟩
      · injection hok with hok
        subst hok
        exact ⟨fun hsub => h1 ((is_multicast_iff m).mpr hsub), by omega⟩

/-- Witness for C8: the multicast host 224.0.0.5. -/
theorem claim_C8_witness :
    validate_input "224.0.0.5".toList [] =
      .error "Multicast addresses are not supported in VNet" :=
  (claim_C8 "224.0.0.5".toList []).1 ⟨3758096389, 32⟩ (by rfl) (by decide)

/-- Counterexample for claim C7 as stated: the input "224.0.0.5"
contains no '/' and is a syntactically valid IPv4 dotted quad, yet
`validate_input` does not succeed with the /32 network — it fails with
the multicast rejection.  Also, the all-whitespace input "   " contains
no '/' and is not a valid dotted quad, yet the failure is the
empty-input error, not the `MalformedAddress` one. -/
theorem claim_C7_counterexample :
    '/' ∉ "224.0.0.5".toList
  ∧ parseQuadCore (pyStrip "224.0.0.5".toList) = some 3758096389
  ∧ validate_input "224.0.0.5".toList [] =
      .error "Multicast addresses are not supported in VNet"
  ∧ validate_input "224.0.0.5".toList [] ≠ .ok ⟨3758096389, 32⟩
  ∧ '/' ∉ "   ".toList
  ∧ parseQuadCore (pyStrip "   ".toList) = Option.none
  ∧ validate_input "   ".toList [] = .error "Empty input provided" := by
  have hv : validate_input "224.0.0.5".toList [] =
      .error "Multicast addresses are not supported in VNet" := by rfl
  refine ⟨by decide, by rfl, hv, ?_, by decide, by rfl, by rfl⟩
  rw [hv]
  intro h
  exact Except.noConfusion h

/-- Claim C7 as amended: for every input string containing no '/' that
is nonempty after trimming, if the trimmed string is a syntactically
valid IPv4 dotted quad whose /32 network passes the address-class
checks (not multicast, below 240.0.0.0) and is either not public or the
public confirmation is answered yes, then `validate_input` succeeds
with the /32 network of that host address; and if the trimmed string is
not a valid dotted quad, `validate_input` fails with the
`MalformedAddress` error. -/
theorem claim_C7_amended (s reply : Str) (hslash : '/' ∉ s) (hne : pyStrip s ≠ []) :
    (∀ a, parseQuadCore (pyStrip s) = some a →
        is_multicast ⟨a, 32⟩ = false → a < 4026531840 →
        (netIsGlobal ⟨a, 32⟩ = false ∨ replyYes reply = true) →
        validate_input s reply = .ok ⟨a, 32⟩)
  ∧ (parseQuadCore (pyStrip s) = Option.none →
        validate_input s reply =
          .error ("Invalid IP address format: " ++ String.mk (pyStrip s))) := by
  have hslash' : '/' ∉ pyStrip s := fun hm => hslash (mem_pyStrip _ _ hm)
  constructor
  · intro a ha hmul h240 hglob
    have hparse : validateParse s = .ok ⟨a, 32⟩ := by
      unfold validateParse
      rw [if_neg hne, if_neg hslash', ha]
      dsimp only
      rw [ipNetworkParse_append32 _ _ hslash' ha]
    unfold validate_input
    rw [hparse]
    dsimp only
    rw [if_neg (by rw [hmul]; simp)]
    rw [if_neg (by omega)]
    rcases hglob with hglob | hyes
    · rw [if_neg (by rw [hglob]; simp)]
    · split_ifs <;> rfl
  · intro ha
    have hparse : validateParse s =
        .error ("Invalid IP address format: " ++ String.mk (pyStrip s)) := by
      unfold validateParse
      rw [if_neg hne, if_neg hslash', ha]
    unfold validate_input
    rw [hparse]

/-- Witness for the amended C7: the host input "10.0.0.1" (the spec's
own example) validates to 10.0.0.1/32. -/
theorem claim_C7_amended_witness :
    validate_input "10.0.0.1".toList [] = .ok ⟨167772161, 32⟩ :=
  (claim_C7_amended "10.0.0.1".toList [] (by decide) (by decide)).1
    167772161 (by rfl) (by decide) (by decide) (Or.inl (by decide))

/-! ## Helper lemmas about the analyzer's single steps -/

theorem vnetStep_eq_of_maskErr (t : IPv4Network) (vn rg : Str) (res : Results) (p : Str)
    (hp : ipNetworkParse p = .error .netmaskValue) :
    vnetStep t vn rg res p = .error .netmaskValue := by
  unfold vnetStep
  rw [hp]

theorem vnetStep_eq_of_addrErr (t : IPv4Network) (vn rg : Str) (res : Results) (p : Str)
    (hp : ipNetworkParse p = .error .addressValue) :
    vnetStep t vn rg res p = .ok res := by
  unfold vnetStep
  rw [hp]

/-- A successfully parsed VNet address prefix is always classified with
the general `is_subnet_overlap` and bucketed by the resulting
relationship, regardless of the target's prefix length. -/
theorem vnetStep_eq_of_ok (t : IPv4Network) (vn rg : Str) (res : Results) (p : Str)
    (net : IPv4Network) (hp : ipNetworkParse p = .ok net) :
    vnetStep t vn rg res p =
      .ok (appendByRel res (is_subnet_overlap t net)
            (mkVnetMatch vn rg net (is_subnet_overlap t net))) := by
  unfold vnetStep
  rw [hp]
  dsimp only
  cases hrel : is_subnet_overlap t net <;> rfl

theorem analyzeSubnet_eq_of_maskErr (t : IPv4Network) (sub : SubnetRec) (vn rg : Str)
    (res : Results) (hp : ipNetworkParse sub.cidr = .error .netmaskValue) :
    analyzeSubnet t sub vn rg res = .error .netmaskValue := by
  unfold analyzeSubnet
  rw [hp]

theorem analyzeSubnet_eq_of_addrErr (t : IPv4Network) (sub : SubnetRec) (vn rg : Str)
    (res : Results) (hp : ipNetworkParse sub.cidr = .error .addressValue) :
    analyzeSubnet t sub vn rg res = .ok res := by
  unfold analyzeSubnet
  rw [hp]

/-- The host short-circuit of `_analyze_subnet`: one match appended to
the `host_in_subnet` bucket and nothing else done. -/
theorem analyzeSubnet_eq_host (t : IPv4Network) (sub : SubnetRec) (vn rg : Str)
    (res : Results) (net : IPv4Network) (hp : ipNetworkParse sub.cidr = .ok net)
    (hcond : t.prefixlen = 32 ∧ check_host_in_network t net = true) :
    analyzeSubnet t sub vn rg res = .ok { res with matchBuckets :=
      { res.matchBuckets with host_in_subnet :=
          res.matchBuckets.host_in_subnet ++
            [mkSubnetMatch vn rg sub.name net .host_in_subnet] } } := by
  unfold analyzeSubnet
  rw [hp]
  dsimp only
  rw [if_pos hcond]

/-- The general-classification path of `_analyze_subnet`. -/
theorem analyzeSubnet_eq_general (t : IPv4Network) (sub : SubnetRec) (vn rg : Str)
    (res : Results) (net : IPv4Network) (hp : ipNetworkParse sub.cidr = .ok net)
    (hcond : ¬ (t.prefixlen = 32 ∧ check_host_in_network t net = true)) :
    analyzeSubnet t sub vn rg res =
      .ok (appendByRel res (is_subnet_overlap t net)
            (mkSubnetMatch vn rg sub.name net (is_subnet_overlap t net))) := by
  unfold analyzeSubnet
  rw [hp]
  dsimp only
  rw [if_neg hcond]
  cases hrel : is_subnet_overlap t net <;> rfl

theorem vnetLoop_host_inv (t : IPv4Network) (vn rg : Str) (ps : List Str) :
    ∀ res r, vnetLoop t vn rg ps res = .ok r →
      r.matchBuckets.host_in_subnet = res.matchBuckets.host_in_subnet := by
  induction ps with
  | nil =>
    intro res r h
    unfold vnetLoop at h
    injection h with h
    rw [h]
  | cons p ps ih =>
    intro res r h
    unfold vnetLoop at h
    split at h
    · exact absurd h (by simp)
    · rename_i r1 hstep
      rw [ih r1 r h]
      cases hp : ipNetworkParse p with
      | error e =>
        cases e with
        | addressValue =>
          rw [vnetStep_eq_of_addrErr _ _ _ _ _ hp] at hstep
          injection hstep with hstep
          rw [← hstep]
        | netmaskValue =>
          rw [vnetStep_eq_of_maskErr _ _ _ _ _ hp] at hstep
          exact absurd hstep (by simp)
      | ok net =>
        rw [vnetStep_eq_of_ok _ _ _ _ _ _ hp] at hstep
        injection hstep with hstep
        rw [← hstep]
        cases is_subnet_overlap t net <;> rfl

/-! ## Claims about the analyzer's control flow -/

/-- Claim C2 concerns the skip-malformed-prefix policy.  The code
violates it: the `except` clauses of `_analyze_vnet` and
`_analyze_subnet` catch only `AddressValueError`, but a bad mask raises
`NetmaskValueError`, which propagates and aborts the whole run.  This
theorem evaluates the embedded analyzer at the failing input: a VNet
whose address prefix "10.0.0.0/33" has a bad mask makes the analysis
abort with the uncaught exception, while a bad address "999.0.0.0/8" is
skipped and the run completes with no matches. -/
theorem claim_C2 :
    analyze_ip_usage ⟨167772160, 24⟩
        [⟨"vnet1".toList, "rg1".toList, ["10.0.0.0/33".toList], []⟩] =
      .error .netmaskValue
  ∧ analyze_ip_usage ⟨167772160, 24⟩
        [⟨"vnet1".toList, "rg1".toList, ["999.0.0.0/8".toList], []⟩] =
      .ok (initResults ⟨167772160, 24⟩
        [⟨"vnet1".toList, "rg1".toList, ["999.0.0.0/8".toList], []⟩]) :=
  ⟨rfl, rfl⟩

/-- Claim C3: for a /32 target and a subnet record whose prefix parses,
a positive `check_host_in_network` appends exactly one match to the
`host_in_subnet` bucket and skips the general classification; a
negative one falls through to the general `is_subnet_overlap` call.
VNet-level address spaces are never short-circuit: each parsed address
prefix is always classified with the general classifier, and the
address-prefix loop never touches the `host_in_subnet` bucket. -/
theorem claim_C3 (t : IPv4Network) (sub : SubnetRec) (vn rg : Str) (res : Results)
    (net : IPv4Network) (h32 : t.prefixlen = 32)
    (hp : ipNetworkParse sub.cidr = .ok net) :
    (check_host_in_network t net = true →
        analyzeSubnet t sub vn rg res = .ok { res with matchBuckets :=
          { res.matchBuckets with host_in_subnet :=
              res.matchBuckets.host_in_subnet ++
                [mkSubnetMatch vn rg sub.name net .host_in_subnet] } })
  ∧ (check_host_in_network t net = false →
        analyzeSubnet t sub vn rg res =
          .ok (appendByRel res (is_subnet_overlap t net)
                (mkSubnetMatch vn rg sub.name net (is_subnet_overlap t net))))
  ∧ (∀ p pnet res2, ipNetworkParse p = .ok pnet →
        vnetStep t vn rg res2 p =
          .ok (appendByRel res2 (is_subnet_overlap t pnet)
                (mkVnetMatch vn rg pnet (is_subnet_overlap t pnet))))
  ∧ (∀ ps res2 r, vnetLoop t vn rg ps res2 = .ok r →
        r.matchBuckets.host_in_subnet = res2.matchBuckets.host_in_subnet) := by
  refine ⟨?_, ?_, ?_, ?_⟩
  · intro hh
    exact analyzeSubnet_eq_host t sub vn rg res net hp ⟨h32, hh⟩
  · intro hh
    exact analyzeSubnet_eq_general t sub vn rg res net hp
      (fun hc => Bool.false_ne_true (hh ▸ hc.2))
  · intro p pnet res2 hpp
    exact vnetStep_eq_of_ok t vn rg res2 p pnet hpp
  · intro ps res2 r h
    exact vnetLoop_host_inv t vn rg ps res2 r h

def wTgt : IPv4Network := ⟨167772165, 32⟩

def wSub : SubnetRec := ⟨"subnet1".toList, "10.0.0.0/24".toList⟩

def wNet : IPv4Network := ⟨167772160, 24⟩

def wRes : Results := initResults wTgt []

/-- Witness for C3: the host 10.0.0.5/32 found in subnet 10.0.0.0/24. -/
theorem claim_C3_witness :
    analyzeSubnet wTgt wSub "vnet1".toList "rg1".toList wRes =
      .ok { wRes with matchBuckets := { wRes.matchBuckets with host_in_subnet :=
          wRes.matchBuckets.host_in_subnet ++
            [mkSubnetMatch "vnet1".toList "rg1".toList wSub.name wNet .host_in_subnet] } } :=
  (claim_C3 wTgt wSub "vnet1".toList "rg1".toList wRes wNet rfl rfl).1 rfl

/-- Claim C10 (implicit): with a /32 target, every match produced from a
subnet record lands in the `host_in_subnet` bucket and never in the
other buckets — a subnet identical to the /32 target passes the host
check (so it is reported as `host_in_subnet`, not `exact`), and a /32
target that is not inside the subnet classifies as `none` against it
and produces no match at all. -/
theorem claim_C10 (t : IPv4Network) (sub : SubnetRec) (vn rg : Str) (res : Results)
    (net : IPv4Network) (h32 : t.prefixlen = 32)
    (hp : ipNetworkParse sub.cidr = .ok net) :
    (check_host_in_network t net = true →
        analyzeSubnet t sub vn rg res = .ok { res with matchBuckets :=
          { res.matchBuckets with host_in_subnet :=
              res.matchBuckets.host_in_subnet ++
                [mkSubnetMatch vn rg sub.name net .host_in_subnet] } })
  ∧ (net = t → check_host_in_network t net = true)
  ∧ (check_host_in_network t net = false →
        is_subnet_overlap t net = .none ∧ analyzeSubnet t sub vn rg res = .ok res) := by
  have tal : t.addr % hostBits t.prefixlen = 0 := by
    rw [h32]
    exact Nat.mod_one _
  have htb : t.broadcast = t.addr := by
    unfold IPv4Network.broadcast
    rw [h32]
    rfl
  refine ⟨?_, ?_, ?_⟩
  · intro hh
    exact analyzeSubnet_eq_host t sub vn rg res net hp ⟨h32, hh⟩
  · intro he
    subst he
    unfold check_host_in_network
    rw [if_pos h32]
    exact addrIn_self net tal
  · intro hh
    obtain ⟨hlt, hle, hal⟩ := ipNetworkParse_valid _ _ hp
    have hnotin : addrIn t.addr net = false := by
      have hc := hh
      unfold check_host_in_network at hc
      rw [if_pos h32] at hc
      exact hc
    have hnotin' : ¬ inRange t.addr net := by
      intro hin
      have hx := (addrIn_iff_inRange t.addr net hal).mpr hin
      rw [hnotin] at hx
      exact Bool.noConfusion hx
    have hnb : net.addr ≤ net.broadcast := broadcast_ge net
    have hmemA : inRange net.addr net := ⟨Nat.le_refl _, hnb⟩
    have hmemB : inRange net.broadcast net := ⟨hnb, Nat.le_refl _⟩
    have hnone : is_subnet_overlap t net = .none := by
      rw [iso_none_iff]
      refine ⟨?_, ?_, ?_, ?_⟩
      · intro he
        apply hnotin'
        rw [← he]
        exact ⟨Nat.le_refl _, broadcast_ge t⟩
      · rw [Bool.eq_false_iff]
        intro hs
        obtain ⟨h1, h2⟩ := (supernetOf_iff t net).mp hs
        rw [htb] at h2
        exact hnotin' ⟨by omega, by omega⟩
      · rw [Bool.eq_false_iff]
        intro hs
        obtain ⟨h1, h2⟩ := (subnetOf_iff t net).mp hs
        rw [htb] at h2
        exact hnotin' ⟨h1, h2⟩
      · unfold overlapsNet
        rw [Bool.or_eq_false_iff, Bool.or_eq_false_iff, Bool.or_eq_false_iff]
        refine ⟨⟨⟨hnotin, ?_⟩, ?_⟩, ?_⟩
        · rw [htb]
          exact hnotin
        · rw [Bool.eq_false_iff]
          intro hmem
          obtain ⟨ha1, ha2⟩ := (addrIn_iff_inRange net.addr t tal).mp hmem
          rw [htb] at ha2
          have he : net.addr = t.addr := by omega
          exact hnotin' (he ▸ hmemA)
        · rw [Bool.eq_false_iff]
          intro hmem
          obtain ⟨ha1, ha2⟩ := (addrIn_iff_inRange net.broadcast t tal).mp hmem
          rw [htb] at ha2
          have he : net.broadcast = t.addr := by omega
          exact hnotin' (he ▸ hmemB)
    refine ⟨hnone, ?_⟩
    rw [analyzeSubnet_eq_general t sub vn rg res net hp
      (fun hc => Bool.false_ne_true (hh ▸ hc.2)), hnone]
    rfl

def wSub2 : SubnetRec := ⟨"subnet2".toList, "192.168.0.0/24".toList⟩

def wNet2 : IPv4Network := ⟨3232235520, 24⟩

/-- Witness for C10: the host 10.0.0.5/32 against the disjoint subnet
192.168.0.0/24 classifies as `none` and produces no match. -/
theorem claim_C10_witness :
    is_subnet_overlap wTgt wNet2 = .none ∧
      analyzeSubnet wTgt wSub2 "vnet1".toList "rg1".toList wRes = .ok wRes :=
  (claim_C10 wTgt wSub2 "vnet1".toList "rg1".toList wRes wNet2 rfl rfl).2.2 rfl

/-! ## Bucket accounting -/

/-- Total number of match records across all five buckets. -/
def totalMatches (r : Results) : Nat :=
  r.matchBuckets.exact.length + r.matchBuckets.contains.length +
    r.matchBuckets.contained.length + r.matchBuckets.overlap.length +
    r.matchBuckets.host_in_subnet.length

/-- Every bucket holds only matches whose `relationship` field names
that bucket; since the field is single-valued, no match record can sit
in two different buckets. -/
def bucketsTagged (r : Results) : Prop :=
  (∀ m ∈ r.matchBuckets.exact, m.relationship = .exact) ∧
  (∀ m ∈ r.matchBuckets.contains, m.relationship = .contains) ∧
  (∀ m ∈ r.matchBuckets.contained, m.relationship = .contained) ∧
  (∀ m ∈ r.matchBuckets.overlap, m.relationship = .overlap) ∧
  (∀ m ∈ r.matchBuckets.host_in_subnet, m.relationship = .host_in_subnet)

/-- Number of matches a single VNet address prefix contributes: one when
it parses and classifies to a non-`none` relationship, zero otherwise. -/
def countVnetPfx (t : IPv4Network) (p : Str) : Nat :=
  match ipNetworkParse p with
  | .ok net => if is_subnet_overlap t net = .none then 0 else 1
  | .error _ => 0

/-- Number of matches a single subnet record contributes: one for a host
hit or a non-`none` classification, zero otherwise. -/
def countSubnetRec (t : IPv4Network) (s : SubnetRec) : Nat :=
  match ipNetworkParse s.cidr with
  | .ok net =>
    if t.prefixlen = 32 ∧ check_host_in_network t net = true then 1
    else if is_subnet_overlap t net = .none then 0 else 1
  | .error _ => 0

/-- Number of matches a discovered VNet contributes. -/
def countVnetRec (t : IPv4Network) (v : VNetRec) : Nat :=
  (v.addressPrefixes.map (countVnetPfx t)).sum + (v.subnets.map (countSubnetRec t)).sum

/-- Number of non-`none` outcomes over the whole discovered set. -/
def countAll (t : IPv4Network) (vnets : List VNetRec) : Nat :=
  (vnets.map (countVnetRec t)).sum

theorem totalMatches_appendByRel (res : Results) (rel : Relationship) (mi : MatchInfo) :
    totalMatches (appendByRel res rel mi) =
      totalMatches res + (if rel = .none ∨ rel = .host_in_subnet then 0 else 1) := by
  cases rel <;> simp [appendByRel, totalMatches] <;> omega

theorem mem_append_tag {l : List MatchInfo} {mi : MatchInfo} {rel : Relationship}
    (hl : ∀ m ∈ l, m.relationship = rel) (hmi : mi.relationship = rel) :
    ∀ m ∈ l ++ [mi], m.relationship = rel := by
  intro m hm
  rcases List.mem_append.mp hm with h | h
  · exact hl m h
  · rw [List.mem_singleton.mp h]
    exact hmi

theorem bucketsTagged_appendByRel (res : Results) (rel : Relationship) (mi : MatchInfo)
    (hmi : mi.relationship = rel) (ht : bucketsTagged res) :
    bucketsTagged (appendByRel res rel mi) := by
  obtain ⟨h1, h2, h3, h4, h5⟩ := ht
  cases rel with
  | exact => exact ⟨mem_append_tag h1 hmi, h2, h3, h4, h5⟩
  | contains => exact ⟨h1, mem_append_tag h2 hmi, h3, h4, h5⟩
  | contained => exact ⟨h1, h2, mem_append_tag h3 hmi, h4, h5⟩
  | overlap => exact ⟨h1, h2, h3, mem_append_tag h4 hmi, h5⟩
  | host_in_subnet => exact ⟨h1, h2, h3, h4, h5⟩
  | none => exact ⟨h1, h2, h3, h4, h5⟩

theorem totalMatches_append_host (res : Results) (mi : MatchInfo) :
    totalMatches { res with matchBuckets := { res.matchBuckets with host_in_subnet :=
        res.matchBuckets.host_in_subnet ++ [mi] } } = totalMatches res + 1 := by
  simp [totalMatches]
  omega

theorem bucketsTagged_append_host (res : Results) (mi : MatchInfo)
    (hmi : mi.relationship = .host_in_subnet) (ht : bucketsTagged res) :
    bucketsTagged { res with matchBuckets := { res.matchBuckets with host_in_subnet :=
        res.matchBuckets.host_in_subnet ++ [mi] } } := by
  obtain ⟨h1, h2, h3, h4, h5⟩ := ht
  exact ⟨h1, h2, h3, h4, mem_append_tag h5 hmi⟩

theorem counts_appendByRel (res : Results) (rel : Relationship) (mi : MatchInfo) :
    (appendByRel res rel mi).total_vnets_checked = res.total_vnets_checked ∧
      (appendByRel res rel mi).total_subnets_checked = res.total_subnets_checked := by
  cases rel <;> exact ⟨rfl, rfl⟩

/-- Full effect of one address-prefix step: matches increase by the
prefix's contribution, the tag invariant is preserved, and both summary
counters are untouched. -/
theorem vnetStep_spec (t : IPv4Network) (vn rg : Str) (res : Results) (p : Str)
    (r : Results) (h : vnetStep t vn rg res p = .ok r) :
    totalMatches r = totalMatches res + countVnetPfx t p ∧
      (bucketsTagged res → bucketsTagged r) ∧
      r.total_vnets_checked = res.total_vnets_checked ∧
      r.total_subnets_checked = res.total_subnets_checked := by
  cases hp : ipNetworkParse p with
  | error e =>
    cases e with
    | addressValue =>
      rw [vnetStep_eq_of_addrErr _ _ _ _ _ hp] at h
      injection h with h
      subst h
      refine ⟨?_, fun ht => ht, rfl, rfl⟩
      simp [countVnetPfx, hp]
    | netmaskValue =>
      rw [vnetStep_eq_of_maskErr _ _ _ _ _ hp] at h
      exact absurd h (by simp)
  | ok net =>
    rw [vnetStep_eq_of_ok _ _ _ _ _ _ hp] at h
    injection h with h
    subst h
    have hne := is_subnet_overlap_ne_host t net
    refine ⟨?_, fun ht => bucketsTagged_appendByRel _ _ _ rfl ht,
      (counts_appendByRel _ _ _).1, (counts_appendByRel _ _ _).2⟩
    rw [totalMatches_appendByRel]
    unfold countVnetPfx
    rw [hp]
    dsimp only
    cases hrel : is_subnet_overlap t net <;> simp_all

/-- Full effect of one subnet step. -/
theorem analyzeSubnet_spec (t : IPv4Network) (sub : SubnetRec) (vn rg : Str)
    (res : Results) (r : Results) (h : analyzeSubnet t sub vn rg res = .ok r) :
    totalMatches r = totalMatches res + countSubnetRec t sub ∧
      (bucketsTagged res → bucketsTagged r) ∧
      r.total_vnets_checked = res.total_vnets_checked ∧
      r.total_subnets_checked = res.total_subnets_checked := by
  cases hp : ipNetworkParse sub.cidr with
  | error e =>
    cases e with
    | addressValue =>
      rw [analyzeSubnet_eq_of_addrErr _ _ _ _ _ hp] at h
      injection h with h
      subst h
      refine ⟨?_, fun ht => ht, rfl, rfl⟩
      simp [countSubnetRec, hp]
    | netmaskValue =>
      rw [analyzeSubnet_eq_of_maskErr _ _ _ _ _ hp] at h
      exact absurd h (by simp)
  | ok net =>
    by_cases hcond : t.prefixlen = 32 ∧ check_host_in_network t net = true
    · rw [analyzeSubnet_eq_host _ _ _ _ _ _ hp hcond] at h
      injection h with h
      subst h
      refine ⟨?_, fun ht => bucketsTagged_append_host _ _ rfl ht, rfl, rfl⟩
      rw [totalMatches_append_host]
      unfold countSubnetRec
      rw [hp]
      dsimp only
      rw [if_pos hcond]
    · rw [analyzeSubnet_eq_general _ _ _ _ _ _ hp hcond] at h
      injection h with h
      subst h
      have hne := is_subnet_overlap_ne_host t net
      refine ⟨?_, fun ht => bucketsTagged_appendByRel _ _ _ rfl ht,
        (counts_appendByRel _ _ _).1, (counts_appendByRel _ _ _).2⟩
      rw [totalMatches_appendByRel]
      unfold countSubnetRec
      rw [hp]
      dsimp only
      rw [if_neg hcond]
      cases hrel : is_subnet_overlap t net <;> simp_all

/-- Effect of the whole address-prefix loop. -/
theorem vnetLoop_spec (t : IPv4Network) (vn rg : Str) (ps : List Str) :
    ∀ res r, vnetLoop t vn rg ps res = .ok r →
      totalMatches r = totalMatches res + (ps.map (countVnetPfx t)).sum ∧
        (bucketsTagged res → bucketsTagged r) ∧
        r.total_vnets_checked = res.total_vnets_checked ∧
        r.total_subnets_checked = res.total_subnets_checked := by
  induction ps with
  | nil =>
    intro res r h
    unfold vnetLoop at h
    injection h with h
    subst h
    exact ⟨by simp, fun ht => ht, rfl, rfl⟩
  | cons p ps ih =>
    intro res r h
    unfold vnetLoop at h
    split at h
    · exact absurd h (by simp)
    · rename_i r1 hstep
      obtain ⟨s1, s2, s3, s4⟩ := vnetStep_spec t vn rg res p r1 hstep
      obtain ⟨l1, l2, l3, l4⟩ := ih r1 r h
      refine ⟨?_, fun ht => l2 (s2 ht), by omega, by omega⟩
      rw [l1, s1]
      simp
      omega

/-- Effect of the whole subnet loop: `total_subnets_checked` goes up by
the number of subnet records processed. -/
theorem subnetLoop_spec (t : IPv4Network) (vn rg : Str) (ss : List SubnetRec) :
    ∀ res r, subnetLoop t vn rg ss res = .ok r →
      totalMatches r = totalMatches res + (ss.map (countSubnetRec t)).sum ∧
        (bucketsTagged res → bucketsTagged r) ∧
        r.total_vnets_checked = res.total_vnets_checked ∧
        r.total_subnets_checked = res.total_subnets_checked + ss.length := by
  induction ss with
  | nil =>
    intro res r h
    unfold subnetLoop at h
    injection h with h
    subst h
    exact ⟨by simp, fun ht => ht, rfl, rfl⟩
  | cons s ss ih =>
    intro res r h
    unfold subnetLoop at h
    split at h
    · exact absurd h (by simp)
    · rename_i r1 hstep
      obtain ⟨s1, s2, s3, s4⟩ := analyzeSubnet_spec t s vn rg res r1 hstep
      obtain ⟨l1, l2, l3, l4⟩ := ih _ r h
      have hm : totalMatches { r1 with total_subnets_checked := r1.total_subnets_checked + 1 }
          = totalMatches r1 := rfl
      have hb : bucketsTagged { r1 with total_subnets_checked := r1.total_subnets_checked + 1 }
          ↔ bucketsTagged r1 := Iff.rfl
      have e1 : ({ r1 with total_subnets_checked := r1.total_subnets_checked + 1 } :
          Results).total_subnets_checked = r1.total_subnets_checked + 1 := rfl
      have e2 : ({ r1 with total_subnets_checked := r1.total_subnets_checked + 1 } :
          Results).total_vnets_checked = r1.total_vnets_checked := rfl
      rw [hm] at l1
      rw [e2] at l3
      rw [e1] at l4
      refine ⟨?_, fun ht => l2 (hb.mpr (s2 ht)), by omega, by simp only [List.length_cons]; omega⟩
      rw [l1, s1]
      simp
      omega

/-- Effect of analysing one discovered VNet. -/
theorem analyzeVnet_spec (t : IPv4Network) (v : VNetRec) (res r : Results)
    (h : analyzeVnet t v res = .ok r) :
    totalMatches r = totalMatches res + countVnetRec t v ∧
      (bucketsTagged res → bucketsTagged r) ∧
      r.total_vnets_checked = res.total_vnets_checked ∧
      r.total_subnets_checked = res.total_subnets_checked + v.subnets.length := by
  unfold analyzeVnet at h
  split at h
  · exact absurd h (by simp)
  · rename_i r1 hloop
    obtain ⟨a1, a2, a3, a4⟩ := vnetLoop_spec t v.name v.resource_group v.addressPrefixes res r1 hloop
    obtain ⟨b1, b2, b3, b4⟩ := subnetLoop_spec t v.name v.resource_group v.subnets r1 r h
    refine ⟨?_, fun ht => b2 (a2 ht), by omega, by omega⟩
    rw [b1, a1]
    unfold countVnetRec
    omega

/-- Effect of the outer VNet loop. -/
theorem vnetsLoop_spec (t : IPv4Network) (vs : List VNetRec) :
    ∀ res r, vnetsLoop t vs res = .ok r →
      totalMatches r = totalMatches res + countAll t vs ∧
        (bucketsTagged res → bucketsTagged r) ∧
        r.total_vnets_checked = res.total_vnets_checked ∧
        r.total_subnets_checked =
          res.total_subnets_checked + (vs.map (fun v => v.subnets.length)).sum := by
  induction vs with
  | nil =>
    intro res r h
    unfold vnetsLoop at h
    injection h with h
    subst h
    exact ⟨by simp [countAll], fun ht => ht, rfl, by simp⟩
  | cons v vs ih =>
    intro res r h
    unfold vnetsLoop at h
    split at h
    · exact absurd h (by simp)
    · rename_i r1 hstep
      obtain ⟨s1, s2, s3, s4⟩ := analyzeVnet_spec t v res r1 hstep
      obtain ⟨l1, l2, l3, l4⟩ := ih r1 r h
      refine ⟨?_, fun ht => l2 (s2 ht), by omega, ?_⟩
      · rw [l1, s1]
        simp [countAll]
        omega
      · rw [l4, s4]
        simp
        omega

/-! ## Claims C4 and C9 about the aggregate report -/

/-- Claim C4: in every report produced by a completed analysis, each
bucket holds only matches tagged with that bucket's relationship (so a
match record sits in exactly one bucket), and the total number of
match records equals the number of prefix evaluations with a non-`none`
outcome — a prefix classified `none` produces no match in any bucket. -/
theorem claim_C4 (t : IPv4Network) (vnets : List VNetRec) (r : Results)
    (h : analyze_ip_usage t vnets = .ok r) :
    bucketsTagged r ∧ totalMatches r = countAll t vnets := by
  unfold analyze_ip_usage at h
  obtain ⟨c1, c2, c3, c4⟩ := vnetsLoop_spec t vnets (initResults t vnets) r h
  have hinit : bucketsTagged (initResults t vnets) := by
    simp [bucketsTagged, initResults]
  have hzero : totalMatches (initResults t vnets) = 0 := rfl
  exact ⟨c2 hinit, by omega⟩

def wVnet : VNetRec :=
  ⟨"vnet1".toList, "rg1".toList, ["10.0.0.0/16".toList],
    [⟨"subnet1".toList, "10.0.0.0/24".toList⟩]⟩

def wTgt24 : IPv4Network := ⟨167772160, 24⟩

def wResEx : Results :=
  ⟨"10.0.0.0/24".toList, false,
    ⟨[mkSubnetMatch "vnet1".toList "rg1".toList "subnet1".toList ⟨167772160, 24⟩ .exact],
      [],
      [mkVnetMatch "vnet1".toList "rg1".toList ⟨167772160, 16⟩ .contained],
      [], []⟩,
    1, 1⟩

/-- Witness for C4: the spec's own example run (target 10.0.0.0/24, one
VNet with space 10.0.0.0/16 and subnet 10.0.0.0/24). -/
theorem claim_C4_witness :
    bucketsTagged wResEx ∧ totalMatches wResEx = countAll wTgt24 [wVnet] :=
  claim_C4 wTgt24 [wVnet] wResEx rfl

/-- Claim C9: a completed analysis reports `total_vnets_checked` equal
to the number of discovered VNets and `total_subnets_checked` equal to
the number of subnet records processed, counting entries that produced
no match; an empty discovered sequence yields a report with all buckets
empty and both counters zero. -/
theorem claim_C9 (t : IPv4Network) (vnets : List VNetRec) (r : Results)
    (h : analyze_ip_usage t vnets = .ok r) :
    r.total_vnets_checked = vnets.length ∧
      r.total_subnets_checked = (vnets.map (fun v => v.subnets.length)).sum ∧
      (vnets = [] → r.matchBuckets = ⟨[], [], [], [], []⟩ ∧
        r.total_vnets_checked = 0 ∧ r.total_subnets_checked = 0) := by
  unfold analyze_ip_usage at h
  obtain ⟨c1, c2, c3, c4⟩ := vnetsLoop_spec t vnets (initResults t vnets) r h
  have hv : (initResults t vnets).total_vnets_checked = vnets.length := rfl
  have hs : (initResults t vnets).total_subnets_checked = 0 := rfl
  refine ⟨by omega, by omega, ?_⟩
  intro he
  subst he
  unfold vnetsLoop at h
  injection h with h
  subst h
  exact ⟨rfl, rfl, rfl⟩

/-- Witness for C9: the empty discovered sequence. -/
theorem claim_C9_witness :
    (initResults wTgt []).total_vnets_checked = ([] : List VNetRec).length ∧
      (initResults wTgt []).total_subnets_checked =
        (([] : List VNetRec).map (fun v => v.subnets.length)).sum ∧
      (([] : List VNetRec) = [] → (initResults wTgt []).matchBuckets = ⟨[], [], [], [], []⟩ ∧
        (initResults wTgt []).total_vnets_checked = 0 ∧
        (initResults wTgt []).total_subnets_checked = 0) :=
  claim_C9 wTgt [] (initResults wTgt []) rfl

end AzureIPChecker
